import Mathlib

/-!
Verification development for the dusk-blockchain core consensus and
chain-acceptance engine.  The Go sources are shallowly embedded: byte
slices become `List Nat`, maps become functions into `Option`, fallible
Go calls become `Except`, and external collaborators (the Rusk executor,
the block verifier, the synchronizer, the fallback procedure) become
records of pure functions supplied as parameters.  Calls made to the
executor are recorded in an explicit trace so that dispatch claims can
be stated about which collaborator function was invoked and with which
arguments.
-/

/-- Byte strings (Go `[]byte`) are modelled as lists of naturals. -/
abbrev Bytes := List Nat

/-- A transaction as the chain acceptance code sees it: an identifying
hash (`tx.CalculateHash()`), the gas spent, and an optional execution
error, the two fields `TamperExecutedTransaction` rewrites. -/
structure Tx where
  hash : Bytes
  gasSpent : Nat
  txError : Option Nat
deriving DecidableEq

/-- The part of `block.Certificate` the chain acceptance logic reads:
the step at which agreement was reached. -/
structure Certificate where
  step : Nat
deriving DecidableEq

/-- The fields of `block.Header` used by the embedded chain logic. -/
structure Header where
  height : Nat
  timestamp : Int
  hash : Bytes
  stateHash : Bytes
  seed : Bytes
  cert : Certificate
deriving DecidableEq

/-- A block: header plus transactions (`block.Block`). -/
structure Block where
  header : Header
  txs : List Tx
deriving DecidableEq

/-- The provisioner set is treated as opaque data by the embedded chain
acceptance code (it is only stored, copied and handed to collaborators),
so it is modelled as a list of BLS public keys. -/
abbrev Provisioners := List Bytes

/-- Errors surfaced by `Chain.runStateTransition` and `Chain.acceptBlock`:
the distinguished `errInvalidStateHash`, and all other errors (executor
transport errors, verification errors), carried as opaque codes. -/
inductive ChainError where
  | invalidStateHash
  | other (code : Nat)
deriving DecidableEq

/-- `config.BlockGasLimit` (5 * 1000000000), the gas limit the chain
passes to the executor for every state transition. -/
def blockGasLimit : Nat := 5000000000

/-- One call made to the Rusk executor, with its arguments, recorded in
the execution trace of the embedded chain functions. -/
inductive ExecCall where
  | getStateRoot
  | finalizeCall (txs : List Tx) (prevStateRoot : Bytes) (height : Nat) (gasLimit : Nat)
  | acceptCall (txs : List Tx) (prevStateRoot : Bytes) (height : Nat) (gasLimit : Nat)
  | persistCall (stateRoot : Bytes)
deriving DecidableEq

/-- The Rusk executor collaborator (`transactions.Executor`), modelled as
a record of pure fallible functions.  `finalize` and `accept` both take
(transactions, previous state root, block height, gas limit) and return
(updated transactions, updated provisioners, new state root). -/
structure Executor where
  getStateRoot : Except Nat Bytes
  finalize : List Tx → Bytes → Nat → Nat → Except Nat (List Tx × Provisioners × Bytes)
  accept : List Tx → Bytes → Nat → Nat → Except Nat (List Tx × Provisioners × Bytes)
  persistRoot : Bytes → Except Nat Unit

/-- The block verification collaborators used by `Chain.isValidBlock`:
`verifier.SanityCheckBlock(prev, blk)` and
`verifiers.CheckBlockCertificate(provisioners, blk, seed)`. -/
structure VerifierOracle where
  sanityCheckBlock : Block → Block → Except Nat Unit
  checkBlockCertificate : Provisioners → Block → Bytes → Except Nat Unit

/-- `block.TamperExecutedTransaction(hash, gasSpent, txError)`: rewrite
the gas-spent annotation and the execution error of the block
transaction with the given hash (a missing hash is logged and ignored
in the source). -/
def tamperOne (b : Block) (t : Tx) : Block :=
  { b with txs := b.txs.map fun bt =>
      if bt.hash = t.hash then { bt with gasSpent := t.gasSpent, txError := t.txError } else bt }

/-- The loop in `Chain.runStateTransition` that tampers the accepted
block's transactions with the gas-spent data returned by the executor. -/
def tamperBlock (b : Block) (txs : List Tx) : Block :=
  txs.foldl tamperOne b

/-- `Chain.sanityCheckStateHash`: fetch the Rusk state root and require
it to equal the current tip's state hash, which must also be non-empty;
otherwise fault with `errInvalidStateHash`. -/
def sanityCheckStateHash (ex : Executor) (tip : Block) : List ExecCall × Except ChainError Unit :=
  match ex.getStateRoot with
  | .error e => ([ExecCall.getStateRoot], .error (ChainError.other e))
  | .ok ruskStateHash =>
    if ¬ (tip.header.stateHash = ruskStateHash) ∨ tip.header.stateHash = [] then
      ([ExecCall.getStateRoot], .error ChainError.invalidStateHash)
    else
      ([ExecCall.getStateRoot], .ok ())

/-- `Chain.runStateTransition(tipBlk, blk)`: sanity check the state
hashes, dispatch `Finalize` (certificate step 3) or `Accept` (any other
step) on the executor, require the returned state root to equal the
block's declared state hash, then tamper the block transactions and
return the updated provisioner set.  At its only call site the `tipBlk`
argument is `*c.tip`, the same tip `sanityCheckStateHash` reads. -/
def runStateTransition (ex : Executor) (tipBlk blk : Block) :
    List ExecCall × Except ChainError (Block × Provisioners) :=
  match sanityCheckStateHash ex tipBlk with
  | (tr, .error e) => (tr, .error e)
  | (tr, .ok _) =>
    let callEntry :=
      if blk.header.cert.step = 3 then
        ExecCall.finalizeCall blk.txs tipBlk.header.stateHash blk.header.height blockGasLimit
      else
        ExecCall.acceptCall blk.txs tipBlk.header.stateHash blk.header.height blockGasLimit
    let res :=
      if blk.header.cert.step = 3 then
        ex.finalize blk.txs tipBlk.header.stateHash blk.header.height blockGasLimit
      else
        ex.accept blk.txs tipBlk.header.stateHash blk.header.height blockGasLimit
    match res with
    | .error e => (tr ++ [callEntry], .error (ChainError.other e))
    | .ok (txs, provisionersUpdated, respStateHash) =>
      if ¬ (respStateHash = blk.header.stateHash) then
        (tr ++ [callEntry], .error ChainError.invalidStateHash)
      else
        (tr ++ [callEntry], .ok (tamperBlock blk txs, provisionersUpdated))

/-- The in-memory chain state owned by the Chain acceptor: the tip, the
provisioner set, the stored blocks (each with its persisted flag) and
the highest block height seen on the network. -/
structure CoreState where
  tip : Block
  p : Provisioners
  db : List (Block × Bool)
  highestSeen : Nat
deriving DecidableEq

/-- `Chain.isValidBlock`: the verifier's stateless sanity check (when
requested) followed by certificate verification against the current
provisioner set and the tip's seed. -/
def isValidBlock (ver : VerifierOracle) (s : CoreState) (blk : Block)
    (withSanityCheck : Bool) : Except Nat Unit :=
  match (if withSanityCheck then ver.sanityCheckBlock s.tip blk else .ok ()) with
  | .error e => .error e
  | .ok _ => ver.checkBlockCertificate s.p blk s.tip.header.seed

/-- `Chain.persist`: one atomic database update storing the block (with
the persisted flag set when `height % PersistEvery == 0`) and, for
persisted blocks, calling the executor's `Persist`; an executor failure
rolls the database write back. -/
def persistBlock (ex : Executor) (persistEvery : Nat) (db : List (Block × Bool)) (b : Block) :
    List ExecCall × Except ChainError (List (Block × Bool)) :=
  if 0 < persistEvery ∧ b.header.height % persistEvery = 0 then
    match ex.persistRoot b.header.stateHash with
    | .error e => ([ExecCall.persistCall b.header.stateHash], .error (ChainError.other e))
    | .ok _ => ([ExecCall.persistCall b.header.stateHash], .ok (db ++ [(b, true)]))
  else
    ([], .ok (db ++ [(b, false)]))

/-- `Chain.acceptBlock`: validate the block, run the state transition
(which updates the provisioner set on success), persist atomically and
advance the tip.  The result carries the executor-call trace, the chain
state after the call, and the error if any step failed. -/
def acceptBlock (ex : Executor) (ver : VerifierOracle) (persistEvery : Nat)
    (s : CoreState) (blk : Block) (withSanityCheck : Bool) :
    List ExecCall × CoreState × Option ChainError :=
  match isValidBlock ver s blk withSanityCheck with
  | .error e => ([], s, some (ChainError.other e))
  | .ok _ =>
    match runStateTransition ex s.tip blk with
    | (tr, .error e) => (tr, s, some e)
    | (tr, .ok (b, provisionersUpdated)) =>
      let s1 : CoreState := { s with p := provisionersUpdated }
      match persistBlock ex persistEvery s1.db b with
      | (tr2, .error e) => (tr ++ tr2, s1, some e)
      | (tr2, .ok db2) => (tr ++ tr2, { s1 with db := db2, tip := b }, none)

/-- An event in the trace of `Chain.ProcessBlockFromNetwork`: either the
fallback procedure was attempted or the block was handed to the
synchronizer (whose paths run block validity and certificate
verification). -/
inductive NetEvent where
  | fallbackAttempt (blk : Block)
  | syncProcess (blk : Block)
deriving DecidableEq

/-- The full chain state seen by `ProcessBlockFromNetwork`: the core
state plus the blacklist of displaced fork hashes.

Modelled from the spec: `dupemap.TmpMap` (the Duplicate Window holding
blacklisted hashes; its source is not part of this repository snapshot)
is modelled as a set of byte strings where `Has` is membership and
`Add` is insertion. -/
structure ChainState where
  core : CoreState
  blacklisted : List Bytes
deriving DecidableEq

/-- Modelled from the spec: `Chain.tryFallback` and
`synchronizer.processBlock`, the collaborators `ProcessBlockFromNetwork`
hands control to, are outside this repository snapshot; they are
modelled as opaque functions over the core state.  Neither touches the
Duplicate Window (the blacklist), which their result type makes
structurally impossible here. -/
structure ChainOracles where
  tryFallback : Block → CoreState → Except Nat CoreState
  syncProcessBlock : Nat → Nat → Block → Nat → CoreState → CoreState × Option (List Bytes) × Option Nat

/-- The result of `ProcessBlockFromNetwork`: the collaborator trace, the
chain state after the call, and the returned buffers and error (Go
`([]bytes.Buffer, error)`, where `(none, none)` is `nil, nil`). -/
structure NetResult where
  events : List NetEvent
  state : ChainState
  bufs : Option (List Bytes)
  err : Option Nat
deriving DecidableEq

/-- `Chain.ProcessBlockFromNetwork`: drop blacklisted blocks outright;
at tip height, drop the exact tip and otherwise attempt fallback,
blacklisting the displaced tip hash on success; drop blocks from the
past; hand everything else to the synchronizer after bumping
`highestSeen`. -/
def processBlockFromNetwork (oc : ChainOracles) (peer kh : Nat)
    (s : ChainState) (blk : Block) : NetResult :=
  if blk.header.hash ∈ s.blacklisted then
    ⟨[], s, none, none⟩
  else if blk.header.height = s.core.tip.header.height then
    if blk.header.hash = s.core.tip.header.hash then
      ⟨[], s, none, none⟩
    else
      let oldHash := s.core.tip.header.hash
      match oc.tryFallback blk s.core with
      | .error _ => ⟨[NetEvent.fallbackAttempt blk], s, none, none⟩
      | .ok core1 =>
        let blacklisted1 := oldHash :: s.blacklisted
        let (core2, bufs, err) := oc.syncProcessBlock peer core1.tip.header.height blk kh core1
        ⟨[NetEvent.fallbackAttempt blk, NetEvent.syncProcess blk], ⟨core2, blacklisted1⟩, bufs, err⟩
  else if blk.header.height < s.core.tip.header.height then
    ⟨[], s, none, none⟩
  else
    let core1 :=
      if s.core.highestSeen < blk.header.height then
        { s.core with highestSeen := blk.header.height }
      else s.core
    let (core2, bufs, err) := oc.syncProcessBlock peer core1.tip.header.height blk kh core1
    ⟨[NetEvent.syncProcess blk], ⟨core2, s.blacklisted⟩, bufs, err⟩

/-- A score message as seen by the Selector (`selection.Score`): the
fields the selection logic reads.  The Go zero value (the `emptyScore`
sentinel) is the structure with all fields empty. -/
structure Score where
  score : Bytes
  voteHash : Bytes
deriving DecidableEq

/-- `selection.emptyScore`, the zero-valued sentinel. -/
def emptyScore : Score := ⟨[], []⟩

/-- The Selector's mutable state: the stored best event, the selection
timeout, and the score handler's threshold.

Modelled from the spec: the score handler (`NewScoreHandler`) keeps the
minimum acceptable score threshold, which `LowerThreshold` halves; its
source is not part of this repository snapshot. -/
structure SelectorState where
  bestEvent : Score
  timeout : Nat
  threshold : Nat
deriving DecidableEq

/-- The score handler collaborators used by `Selector.Process`:
`Priority` (does the first score beat the second), `Verify` (the ZK
score-proof check) and the marshalling step of `Selector.repropagate`,
whose failure is the only way repropagation fails. -/
structure ScoreHandler where
  priority : Score → Score → Bool
  verify : Score → Except Nat Unit
  marshal : Score → Except Nat Bytes

/-- `Selector.IncreaseTimeOut`: the selection timeout is doubled. -/
def increaseTimeOut (s : SelectorState) : SelectorState :=
  { s with timeout := s.timeout * 2 }

/-- Modelled from the spec: `handler.LowerThreshold` (absent from this
repository snapshot) halves the minimum acceptable score threshold. -/
def lowerThreshold (s : SelectorState) : SelectorState :=
  { s with threshold := s.threshold / 2 }

/-- `Selector.publishBestEvent`: publish the 32-zero-byte hash when no
best event was collected, the best event's vote hash otherwise; then
lower the threshold and double the timeout (both unconditionally in the
source).  Returns the new state and the published payload. -/
def publishBestEvent (s : SelectorState) : SelectorState × Bytes :=
  let payload :=
    if s.bestEvent = emptyScore then List.replicate 32 0
    else s.bestEvent.voteHash
  (increaseTimeOut (lowerThreshold s), payload)

/-- `Selector.Process(ev)`: keep the current best when it has priority;
otherwise provisionally store the new event, and restore the previous
best if verification or repropagation fails.  Returns the new state,
the error, and the repropagated payload if any. -/
def selectorProcess (h : ScoreHandler) (s : SelectorState) (ev : Score) :
    SelectorState × Except Nat Unit × Option (Bytes × Bytes) :=
  let bestEvent := s.bestEvent
  if ¬ (bestEvent = emptyScore) ∧ h.priority bestEvent ev = true then
    (s, .ok (), none)
  else
    let s1 := { s with bestEvent := ev }
    match h.verify ev with
    | .error e => ({ s1 with bestEvent := bestEvent }, .error e, none)
    | .ok _ =>
      match h.marshal ev with
      | .error e => ({ s1 with bestEvent := bestEvent }, .error e, none)
      | .ok buf => (s1, .ok (), some (ev.voteHash, buf))

/-- A consensus message header (`header.Header`): round, step, block
hash and the sender's BLS public key. -/
structure MsgHeader where
  pubKeyBLS : Bytes
  round : Nat
  step : Nat
  blockHash : Bytes
deriving DecidableEq

/-- `agreement.Filter(hdr)`: the agreement component's ingress filter,
`!a.handler.IsMember(hdr.PubKeyBLS, hdr.Round, hdr.Step)`.  A result of
`true` filters the message out; `false` passes it to the accumulator.

Modelled from the spec: the agreement handler's `IsMember` (not part of
this repository snapshot) is the committee-membership predicate at one
`(round, step)` pair, supplied here as a parameter. -/
def agreementFilter (isMember : Bytes → Nat → Nat → Bool) (hdr : MsgHeader) : Bool :=
  ! isMember hdr.pubKeyBLS hdr.round hdr.step

/-- A reduction message (`message.Reduction`) together with its header
(`ev.State()`): block hash, sender key, round, step, and the sender's
BLS signature over the signable form. -/
structure RedEvent where
  blockHash : Bytes
  pubKeyBLS : Bytes
  round : Nat
  step : Nat
  signedHash : Bytes
deriving DecidableEq

/-- `message.StepVotes`: the aggregated BLS data for one block hash.
The BLS group elements are modelled algebraically: the aggregated
public key as the list of aggregated member keys, the aggregated
signature as the list of added signatures. -/
structure StepVotes where
  apk : List Bytes
  signature : List Bytes
  step : Nat
  bitSet : Nat
deriving DecidableEq

/-- `message.NewStepVotes()`: the empty aggregate. -/
def StepVotes.new : StepVotes := ⟨[], [], 0, 0⟩

/-- Modelled from the spec: `message.StepVotes.Add(signature, sender,
step)` (absent from this repository snapshot) performs group-addition
of the sender's signature and key into the aggregate; adding the same
`(sender, step)` twice, or a step different from the aggregate's step,
is a programming error surfaced as a fatal fault in the caller. -/
def StepVotes.add (sv : StepVotes) (sig sender : Bytes) (step : Nat) : Except Nat StepVotes :=
  if sv.apk = [] then
    .ok { apk := [sender], signature := [sig], step := step, bitSet := sv.bitSet }
  else if ¬ (step = sv.step) then
    .error 0
  else if sender ∈ sv.apk then
    .error 1
  else
    .ok { sv with apk := sv.apk ++ [sender], signature := sv.signature ++ [sig] }

/-- The collaborators of the reduction `Aggregator` taken from its
`Handler`: the committee size for a round, the voting weight
`VotesFor(pubKey, round, step)`, and `Committee(round, step).Bits(set)`
producing the committee bitset of a set of signers. -/
structure RedHandler where
  committeeSize : Nat → Nat
  votesFor : Bytes → Nat → Nat → Nat
  committeeBits : Nat → Nat → List Bytes → Nat

/-- Modelled from the spec: `Handler.Quorum(round)` (absent from this
repository snapshot) is fixed at `⌈2·committee_size/3⌉ + 1`. -/
def RedHandler.quorum (h : RedHandler) (round : Nat) : Nat :=
  (2 * h.committeeSize round + 2) / 3 + 1

/-- The reduction `Aggregator`'s vote-set storage: an association from
block hash to the `StepVotes` aggregate and the signer cluster.

Modelled from the spec: `sortedset.Cluster` (not part of this
repository snapshot) is a multiset of public keys, modelled as a list;
`Insert` adds one occurrence, `TotalOccurrences` is the total count,
and `.Set` is the underlying set of distinct keys (`List.dedup`). -/
structure Aggregator where
  voteSets : List (Bytes × StepVotes × List Bytes)
deriving DecidableEq

/-- Lookup in the aggregator's vote-set map. -/
def findVS : List (Bytes × StepVotes × List Bytes) → Bytes → Option (StepVotes × List Bytes)
  | [], _ => none
  | (k, v) :: rest, h => if k = h then some v else findVS rest h

/-- Write-back into the aggregator's vote-set map
(`a.voteSets[hash] = sv`). -/
def setVS (m : List (Bytes × StepVotes × List Bytes)) (h : Bytes)
    (v : StepVotes × List Bytes) : List (Bytes × StepVotes × List Bytes) :=
  match m with
  | [] => [(h, v)]
  | (k, w) :: rest => if k = h then (h, v) :: rest else (k, w) :: setVS rest h v

/-- `reduction.Result`: the voted block hash and its frozen StepVotes. -/
structure RedResult where
  hash : Bytes
  sv : StepVotes
deriving DecidableEq

/-- The signer cluster currently stored for the event's block hash. -/
def pendingCluster (a : Aggregator) (ev : RedEvent) : List Bytes :=
  ((findVS a.voteSets ev.blockHash).getD (StepVotes.new, [])).2

/-- The weighted occurrence total for the event's block hash after this
vote is collected. -/
def newTotal (h : RedHandler) (a : Aggregator) (ev : RedEvent) : Nat :=
  (pendingCluster a ev).length + h.votesFor ev.pubKeyBLS ev.round ev.step

/-- `Aggregator.CollectVote(ev)`: aggregate the signature under the
event's block hash (a fatal fault if the aggregate rejects it), insert
the sender into the cluster `VotesFor` times, and when the cluster's
total occurrences reach the round quorum, fill in the committee bitset
(`addBitSet`) and return the result; otherwise return nothing. -/
def collectVote (h : RedHandler) (a : Aggregator) (ev : RedEvent) :
    Except Nat (Aggregator × Option RedResult) :=
  let hash := ev.blockHash
  let svcl := (findVS a.voteSets hash).getD (StepVotes.new, [])
  match svcl.1.add ev.signedHash ev.pubKeyBLS ev.step with
  | .error e => .error e
  | .ok sv1 =>
    let votes := h.votesFor ev.pubKeyBLS ev.round ev.step
    let cl1 := svcl.2 ++ List.replicate votes ev.pubKeyBLS
    if h.quorum ev.round ≤ cl1.length then
      let sv2 := { sv1 with bitSet := h.committeeBits ev.round ev.step cl1.dedup }
      .ok ({ voteSets := setVS a.voteSets hash (sv2, cl1) }, some ⟨hash, sv2⟩)
    else
      .ok ({ voteSets := setVS a.voteSets hash (sv1, cl1) }, none)

/-- The wire commands involved in the stall detector's expected-reply
matrix (`commands.Cmd`). -/
inductive Cmd where
  | version
  | verAck
  | getAddr
  | addr
  | getHeaders
  | headers
  | getBlocks
  | inv
  | getData
  | block
  | tx
  | notFound
deriving DecidableEq

/-- `Detector.addMessage(cmd)`: the fixed matrix of replies expected
after sending `cmd` (commands outside the matrix expect nothing). -/
def stallAddMatrix : Cmd → List Cmd
  | Cmd.getHeaders => [Cmd.headers]
  | Cmd.getAddr => [Cmd.addr]
  | Cmd.getData => [Cmd.block, Cmd.tx, Cmd.notFound]
  | Cmd.getBlocks => [Cmd.inv]
  | Cmd.version => [Cmd.verAck]
  | _ => []

/-- `Detector.removeMessage(cmd)`: the pending entries cleared when
`cmd` is received; `Block` and `Tx` each clear `Block`, `Tx` and
`NotFound`, any other command clears only itself. -/
def stallRemoveMatrix : Cmd → List Cmd
  | Cmd.block => [Cmd.block, Cmd.tx, Cmd.notFound]
  | Cmd.tx => [Cmd.block, Cmd.tx, Cmd.notFound]
  | c => [c]

/-- The detector's pending-response map `responses`, from expected
command to its deadline. -/
def StallResponses := Cmd → Option Nat

/-- Set one pending entry (`d.responses[cmd] = deadline`). -/
def stallSet (resp : StallResponses) (c : Cmd) (deadline : Nat) : StallResponses :=
  fun q => if q = c then some deadline else resp q

/-- Delete one pending entry (`delete(d.responses, cmd)`). -/
def stallDel (resp : StallResponses) (c : Cmd) : StallResponses :=
  fun q => if q = c then none else resp q

/-- `Detector.AddMessage(cmd)`: record `now + responseTime` as the
deadline of every reply expected for `cmd`. -/
def stallAddMessage (resp : StallResponses) (now responseTime : Nat) (cmd : Cmd) : StallResponses :=
  (stallAddMatrix cmd).foldl (fun r c => stallSet r c (now + responseTime)) resp

/-- `Detector.RemoveMessage(cmd)`: delete every pending entry the
received command clears. -/
def stallRemoveMessage (resp : StallResponses) (cmd : Cmd) : StallResponses :=
  (stallRemoveMatrix cmd).foldl (fun r c => stallDel r c) resp

/-- The empty pending-response map. -/
def stallEmpty : StallResponses := fun _ => none

/-- The lite driver's storage tables (`lite.DB.storage`), one function
per key space.  Each table only ever holds keys of one fixed length, so
the fixed-size `toKey` padding is injective on them and keys are
modelled directly (hashes and transaction ids as byte strings, heights
and bid expiries as naturals).  Block serialization is modelled as the
identity, matching the marshal/unmarshal round-trip the driver relies
on. -/
structure LiteStorage where
  blocks : Bytes → Option Block
  txsTbl : Bytes → Option (Tx × Nat)
  txHashTbl : Bytes → Option Bytes
  heightTbl : Nat → Option Block
  stateTip : Option Bytes
  bidValues : Nat → Option Bytes

/-- The pending writes of one lite transaction (`transaction.batch`);
a `some` entry overrides storage at commit. -/
structure LiteBatch where
  blocks : Bytes → Option Block
  txsTbl : Bytes → Option (Tx × Nat)
  txHashTbl : Bytes → Option Bytes
  heightTbl : Nat → Option Block
  stateTip : Option Bytes

/-- A lite driver transaction: writability flag, the shared storage it
reads, and its write batch (initialized non-empty by the driver). -/
structure LiteTxn where
  writable : Bool
  storage : LiteStorage
  batch : LiteBatch

/-- The transaction-indexing loop of `transaction.StoreBlock`: map each
transaction id to the encoded transaction with its index and to the
containing block's hash, failing on an empty transaction id. -/
def storeTxLoop (batch : LiteBatch) (bhash : Bytes) (i : Nat) :
    List Tx → Except Nat LiteBatch
  | [] => .ok batch
  | t :: rest =>
    if t.hash = [] then .error 1
    else
      storeTxLoop
        { batch with
          txsTbl := fun k => if k = t.hash then some (t, i) else batch.txsTbl k,
          txHashTbl := fun k => if k = t.hash then some bhash else batch.txHashTbl k }
        bhash (i + 1) rest

/-- `lite/transaction.StoreBlock(b)`: reject read-only transactions;
batch the block under its hash, index its transactions, batch the block
under its height and the tip-state key under the block hash; and drop
the bid values whose expiry height is below the new block's height
(written directly to storage in the source). -/
def storeBlockLite (t : LiteTxn) (b : Block) : Except Nat LiteTxn :=
  if t.writable = false then .error 0
  else
    let batch1 :=
      { t.batch with blocks := fun k => if k = b.header.hash then some b else t.batch.blocks k }
    match storeTxLoop batch1 b.header.hash 0 b.txs with
    | .error e => .error e
    | .ok batch2 =>
      let batch3 :=
        { batch2 with
          heightTbl := fun h => if h = b.header.height then some b else batch2.heightTbl h,
          stateTip := some b.header.hash }
      let storage1 :=
        { t.storage with
          bidValues := fun h => if h < b.header.height then none else t.storage.bidValues h }
      .ok { t with storage := storage1, batch := batch3 }

/-- The merge of a write batch over the lite storage: batch entries
overwrite, everything else is kept. -/
def mergeLite (storage : LiteStorage) (batch : LiteBatch) : LiteStorage :=
  { blocks := fun k => match batch.blocks k with | some v => some v | none => storage.blocks k,
    txsTbl := fun k => match batch.txsTbl k with | some v => some v | none => storage.txsTbl k,
    txHashTbl := fun k => match batch.txHashTbl k with | some v => some v | none => storage.txHashTbl k,
    heightTbl := fun h => match batch.heightTbl h with | some v => some v | none => storage.heightTbl h,
    stateTip := match batch.stateTip with | some v => some v | none => storage.stateTip,
    bidValues := storage.bidValues }

/-- `lite/transaction.Commit`: apply the batch to the storage. -/
def commitLite (t : LiteTxn) : Except Nat LiteStorage :=
  if t.writable = false then .error 0
  else .ok (mergeLite t.storage t.batch)

/-- `lite/transaction.FetchState`: the stored tip hash, which must be
present and non-empty. -/
def fetchStateLite (st : LiteStorage) : Except Nat Bytes :=
  match st.stateTip with
  | none => .error 2
  | some h => if h = [] then .error 2 else .ok h

/-- `lite/transaction.FetchBlockHeader(hash)`. -/
def fetchBlockHeaderLite (st : LiteStorage) (hash : Bytes) : Except Nat Header :=
  match st.blocks hash with
  | none => .error 3
  | some b => .ok b.header

/-- `lite/transaction.FetchCurrentHeight`: the height of the block the
tip-state key points at. -/
def fetchCurrentHeightLite (st : LiteStorage) : Except Nat Nat :=
  match fetchStateLite st with
  | .error e => .error e
  | .ok tipHash =>
    match fetchBlockHeaderLite st tipHash with
    | .error e => .error e
    | .ok header => .ok header.height

/-- `lite/transaction.FetchBlockHashByHeight(height)`: the hash of the
block stored under the height key. -/
def fetchBlockHashByHeightLite (st : LiteStorage) (height : Nat) : Except Nat Bytes :=
  match st.heightTbl height with
  | none => .error 3
  | some b => .ok b.header.hash

/-- A concrete executor used to evaluate the chain theorems: state root
`[3]`, transitions that echo the transactions and return state root
`[9]`, and a persisting step that always succeeds. -/
def exW : Executor :=
  { getStateRoot := .ok [3],
    finalize := fun txs _ _ _ => .ok (txs, [[1]], [9]),
    accept := fun txs _ _ _ => .ok (txs, [[2]], [9]),
    persistRoot := fun _ => .ok () }

/-- A concrete verifier that accepts every block and certificate. -/
def verW : VerifierOracle :=
  { sanityCheckBlock := fun _ _ => .ok (),
    checkBlockCertificate := fun _ _ _ => .ok () }

/-- A concrete tip block with state hash `[3]`. -/
def tipW : Block := ⟨⟨0, 0, [1], [3], [4], ⟨3⟩⟩, []⟩

/-- A concrete successor block with certificate step 3 whose declared
state hash matches the executor's response. -/
def blkW3 : Block := ⟨⟨1, 1, [2], [9], [5], ⟨3⟩⟩, []⟩

/-- A concrete successor block with certificate step 4 whose declared
state hash `[8]` differs from the executor's response `[9]`. -/
def blkW4 : Block := ⟨⟨1, 1, [2], [8], [5], ⟨4⟩⟩, []⟩

/-- A concrete chain core state whose tip is `tipW`. -/
def sW : CoreState := ⟨tipW, [], [], 0⟩

/-- A concrete reduction handler: every round has committee size 3
(hence quorum 3), every key has voting weight 3, and the bitset of a
signer set is its cardinality. -/
def hC3 : RedHandler := ⟨fun _ => 3, fun _ _ _ => 3, fun _ _ s => s.length⟩

/-- The empty aggregator. -/
def aC3 : Aggregator := ⟨[]⟩

/-- A concrete reduction vote for block hash `[7]` from sender `[1]`. -/
def evC3 : RedEvent := ⟨[7], [1], 1, 1, [9]⟩

/-- A concrete membership predicate under which every key is a
committee member at step 2 and at no other step. -/
def isMemberC4 : Bytes → Nat → Nat → Bool := fun _ _ step => decide (step = 2)

/-- A concrete agreement header at round 1, step 2. -/
def hdrC4 : MsgHeader := ⟨[1], 1, 2, [7]⟩

/-- The concrete collaborators used to evaluate the network-processing
theorems: fallback succeeds without changing the core state, and the
synchronizer returns the state it is given with nil buffers and nil
error. -/
def ocW : ChainOracles :=
  ⟨fun _ c => .ok c, fun _ _ _ _ c => (c, none, none)⟩

/-- A concrete chain state with tip `tipW` and an empty blacklist. -/
def sChainW : ChainState := ⟨sW, []⟩

/-- A concrete competing block at the tip's height with a different
hash. -/
def blkSameW : Block := ⟨⟨0, 0, [9], [3], [4], ⟨3⟩⟩, []⟩

/-- A concrete chain state whose tip is at height 5. -/
def sChainW5 : ChainState := ⟨⟨⟨⟨5, 0, [1], [3], [4], ⟨3⟩⟩, []⟩, [], [], 0⟩, []⟩

/-- A concrete stale block at height 4 below the tip height 5. -/
def blkOldW : Block := ⟨⟨4, 0, [6], [3], [4], ⟨3⟩⟩, []⟩

/-- A concrete selector state holding a non-empty best event, timeout 7
and threshold 10. -/
def selC6 : SelectorState := ⟨⟨[1], [2]⟩, 7, 10⟩

/-- A concrete score handler whose verification always fails with
error 5. -/
def hC7 : ScoreHandler := ⟨fun _ _ => false, fun _ => .error 5, fun _ => .ok []⟩

/-- A concrete selector state for evaluating the C7 theorem. -/
def selC7 : SelectorState := ⟨⟨[1], [2]⟩, 7, 10⟩

/-- A concrete writable lite transaction over empty storage. -/
def liteTxnW : LiteTxn :=
  { writable := true,
    storage :=
      { blocks := fun _ => none, txsTbl := fun _ => none, txHashTbl := fun _ => none,
        heightTbl := fun _ => none, stateTip := none, bidValues := fun _ => none },
    batch :=
      { blocks := fun _ => none, txsTbl := fun _ => none, txHashTbl := fun _ => none,
        heightTbl := fun _ => none, stateTip := none } }

/-- A concrete block at height 7 with hash `[5]` and one transaction. -/
def blockC8 : Block := ⟨⟨7, 0, [5], [3], [4], ⟨3⟩⟩, [⟨[6], 0, none⟩]⟩

/-- Claim C1: during chain acceptance, the state transition is
dispatched on the block certificate's step: when the sanity check on
the state hashes passes, the executor-call trace of
`runStateTransition` contains exactly one state-transition call, which
is `Finalize` when the certificate step equals 3 and `Accept` for every
other step, in both cases with the block transactions, the parent
(tip) state hash, the block height and the gas limit. -/
theorem C1_stateTransitionDispatch (ex : Executor) (tip blk : Block) (root : Bytes)
    (hroot : ex.getStateRoot = .ok root)
    (hsan : tip.header.stateHash = root)
    (hne : tip.header.stateHash ≠ []) :
    (runStateTransition ex tip blk).1 =
      [ExecCall.getStateRoot,
       if blk.header.cert.step = 3 then
         ExecCall.finalizeCall blk.txs tip.header.stateHash blk.header.height blockGasLimit
       else
         ExecCall.acceptCall blk.txs tip.header.stateHash blk.header.height blockGasLimit] := by
  subst hsan
  have hcond : ¬ (¬ (tip.header.stateHash = tip.header.stateHash) ∨ tip.header.stateHash = []) := by
    simp [hne]
  unfold runStateTransition sanityCheckStateHash
  rw [hroot]
  dsimp only
  rw [if_neg hcond]
  dsimp only
  by_cases hstep : blk.header.cert.step = 3
  · simp only [hstep, reduceIte]
    rcases hres : ex.finalize blk.txs tip.header.stateHash blk.header.height blockGasLimit
      with e | ⟨txs, pu, resp⟩
    · rfl
    · dsimp only
      split <;> rfl
  · simp only [if_neg hstep]
    rcases hres : ex.accept blk.txs tip.header.stateHash blk.header.height blockGasLimit
      with e | ⟨txs, pu, resp⟩
    · rfl
    · dsimp only
      split <;> rfl

/-- Witness for C1: evaluating the dispatch theorem on a concrete
executor and a step-3 block. -/
theorem C1_stateTransitionDispatch_witness :
    (runStateTransition exW tipW blkW3).1 =
      [ExecCall.getStateRoot,
       if blkW3.header.cert.step = 3 then
         ExecCall.finalizeCall blkW3.txs tipW.header.stateHash blkW3.header.height blockGasLimit
       else
         ExecCall.acceptCall blkW3.txs tipW.header.stateHash blkW3.header.height blockGasLimit] :=
  C1_stateTransitionDispatch exW tipW blkW3 [3] rfl rfl (by decide)

/-- Claim C2: when the verifier passes and the executor completes the
state transition, a returned state root different from the block's
declared state hash makes `acceptBlock` fail with the
`invalid_state_hash` error and leave the chain state (tip, provisioner
set, stored blocks) unchanged; an equal state root makes
`runStateTransition` succeed, so no such error is raised. -/
theorem C2_invalidStateHash (ex : Executor) (ver : VerifierOracle) (persistEvery : Nat)
    (s : CoreState) (blk : Block) (root : Bytes) (txs2 : List Tx) (p2 : Provisioners)
    (resp : Bytes)
    (hroot : ex.getStateRoot = .ok root)
    (hsan : s.tip.header.stateHash = root)
    (hne : s.tip.header.stateHash ≠ [])
    (hver : ver.sanityCheckBlock s.tip blk = .ok ())
    (hcert : ver.checkBlockCertificate s.p blk s.tip.header.seed = .ok ())
    (hexec : (if blk.header.cert.step = 3 then ex.finalize else ex.accept)
        blk.txs s.tip.header.stateHash blk.header.height blockGasLimit = .ok (txs2, p2, resp)) :
    (¬ (resp = blk.header.stateHash) →
       (acceptBlock ex ver persistEvery s blk true).2 = (s, some ChainError.invalidStateHash)) ∧
    (resp = blk.header.stateHash →
       (runStateTransition ex s.tip blk).2 = .ok (tamperBlock blk txs2, p2)) := by
  subst hsan
  have hcond : ¬ (¬ (s.tip.header.stateHash = s.tip.header.stateHash) ∨ s.tip.header.stateHash = []) := by
    simp [hne]
  have hrst : runStateTransition ex s.tip blk =
      ([ExecCall.getStateRoot,
        if blk.header.cert.step = 3 then
          ExecCall.finalizeCall blk.txs s.tip.header.stateHash blk.header.height blockGasLimit
        else
          ExecCall.acceptCall blk.txs s.tip.header.stateHash blk.header.height blockGasLimit],
       if ¬ (resp = blk.header.stateHash) then .error ChainError.invalidStateHash
       else .ok (tamperBlock blk txs2, p2)) := by
    unfold runStateTransition sanityCheckStateHash
    rw [hroot]
    dsimp only
    rw [if_neg hcond]
    dsimp only
    by_cases hstep : blk.header.cert.step = 3
    · rw [if_pos hstep] at hexec
      simp only [hstep, reduceIte, hexec]
      split <;> rfl
    · rw [if_neg hstep] at hexec
      simp only [if_neg hstep, hexec]
      split <;> rfl
  constructor
  · intro hmis
    unfold acceptBlock isValidBlock
    rw [hver]
    dsimp only
    rw [hcert]
    rw [hrst]
    rw [if_pos hmis]
    rfl
  · intro heq
    rw [hrst]
    dsimp only
    rw [if_neg (by simpa using heq)]

/-- Witness for C2: a concrete block whose declared state hash `[8]`
differs from the executor's returned root `[9]` is rejected with the
`invalid_state_hash` error and the chain state is unchanged. -/
theorem C2_invalidStateHash_witness :
    (acceptBlock exW verW 0 sW blkW4 true).2 = (sW, some ChainError.invalidStateHash) :=
  (C2_invalidStateHash exW verW 0 sW blkW4 [3] [] [[2]] [9]
    rfl rfl (by decide) rfl rfl rfl).1 (by decide)

/-- Claim C3: when `CollectVote` accepts a reduction vote (no fatal
aggregation fault), it returns a result exactly when the weighted
occurrences accumulated for the vote's block hash reach or exceed the
round quorum `⌈2·committee_size/3⌉ + 1`; the result carries that block
hash and its StepVotes with the committee bitset filled in, and nothing
is returned below quorum. -/
theorem C3_collectVoteQuorum (h : RedHandler) (a : Aggregator) (ev : RedEvent)
    (a2 : Aggregator) (res : Option RedResult)
    (hok : collectVote h a ev = .ok (a2, res)) :
    (res.isSome ↔ h.quorum ev.round ≤ newTotal h a ev) ∧
    (∀ r, res = some r → r.hash = ev.blockHash ∧
      r.sv.bitSet = h.committeeBits ev.round ev.step
        ((pendingCluster a ev ++
          List.replicate (h.votesFor ev.pubKeyBLS ev.round ev.step) ev.pubKeyBLS).dedup)) := by
  unfold collectVote at hok
  dsimp only at hok
  rcases hadd : ((findVS a.voteSets ev.blockHash).getD (StepVotes.new, [])).1.add
      ev.signedHash ev.pubKeyBLS ev.step with e | sv1
  · rw [hadd] at hok
    exact absurd hok (by simp)
  · rw [hadd] at hok
    dsimp only at hok
    have hlen : (((findVS a.voteSets ev.blockHash).getD (StepVotes.new, [])).2 ++
        List.replicate (h.votesFor ev.pubKeyBLS ev.round ev.step) ev.pubKeyBLS).length =
        newTotal h a ev := by
      simp [newTotal, pendingCluster]
    by_cases hq : h.quorum ev.round ≤
        (((findVS a.voteSets ev.blockHash).getD (StepVotes.new, [])).2 ++
          List.replicate (h.votesFor ev.pubKeyBLS ev.round ev.step) ev.pubKeyBLS).length
    · rw [if_pos hq] at hok
      simp only [Except.ok.injEq, Prod.mk.injEq] at hok
      obtain ⟨ha2, hres⟩ := hok
      subst hres
      rw [hlen] at hq
      refine ⟨by simpa using hq, ?_⟩
      intro r hr
      simp only [Option.some.injEq] at hr
      subst hr
      exact ⟨rfl, rfl⟩
    · rw [if_neg hq] at hok
      simp only [Except.ok.injEq, Prod.mk.injEq] at hok
      obtain ⟨ha2, hres⟩ := hok
      subst hres
      rw [hlen] at hq
      exact ⟨by simpa using hq, by intro r hr; cases hr⟩

/-- Witness for C3: with committee size 3 a single vote of weight 3
reaches the quorum 3, so `CollectVote` returns the result for hash
`[7]` with the bitset filled in. -/
theorem C3_collectVoteQuorum_witness :
    ((some (⟨[7], ⟨[[1]], [[9]], 1, 1⟩⟩ : RedResult)).isSome ↔
      hC3.quorum 1 ≤ newTotal hC3 aC3 evC3) ∧
    (∀ r, (some (⟨[7], ⟨[[1]], [[9]], 1, 1⟩⟩ : RedResult)) = some r →
      r.hash = evC3.blockHash ∧
      r.sv.bitSet = hC3.committeeBits evC3.round evC3.step
        ((pendingCluster aC3 evC3 ++
          List.replicate (hC3.votesFor evC3.pubKeyBLS evC3.round evC3.step) evC3.pubKeyBLS).dedup)) :=
  C3_collectVoteQuorum hC3 aC3 evC3
    ⟨[([7], ⟨[[1]], [[9]], 1, 1⟩, [[1], [1], [1]])]⟩
    (some ⟨[7], ⟨[[1]], [[9]], 1, 1⟩⟩) rfl

/-- Counterexample for C4: the sender of `hdrC4` is not a committee
member at `(round, step - 1)`, yet the agreement filter does not reject
the message (it returns `false`, passing it to the accumulator), so
membership at the previous step is not checked. -/
theorem C4_stepMinusOne_counterexample :
    isMemberC4 hdrC4.pubKeyBLS hdrC4.round (hdrC4.step - 1) = false ∧
    agreementFilter isMemberC4 hdrC4 = false := by decide

/-- Claim C4 (amended): the agreement component filters an incoming
message out exactly when the header's sender is not a committee member
at `(round, step)`; membership at `(round, step - 1)` is not
consulted. -/
theorem C4_filterMembership (isMember : Bytes → Nat → Nat → Bool) (hdr : MsgHeader) :
    agreementFilter isMember hdr = false ↔
      isMember hdr.pubKeyBLS hdr.round hdr.step = true := by
  simp [agreementFilter]

/-- Claim C5: when a block arrives at the tip's height with a different
hash and the fallback procedure succeeds, the displaced old tip hash is
in the blacklist of the resulting chain state; and every received block
whose hash is blacklisted is dropped with nil buffers and nil error,
with no state change and no fallback or synchronizer (verification)
step run. -/
theorem C5_fallbackBlacklist (oc : ChainOracles) (peer kh : Nat) (s : ChainState)
    (blk : Block) (core1 : CoreState)
    (hnb : blk.header.hash ∉ s.blacklisted)
    (hh : blk.header.height = s.core.tip.header.height)
    (hne : blk.header.hash ≠ s.core.tip.header.hash)
    (hfb : oc.tryFallback blk s.core = .ok core1) :
    s.core.tip.header.hash ∈ (processBlockFromNetwork oc peer kh s blk).state.blacklisted ∧
    ∀ (s2 : ChainState) (blk2 : Block), blk2.header.hash ∈ s2.blacklisted →
      processBlockFromNetwork oc peer kh s2 blk2 = ⟨[], s2, none, none⟩ := by
  constructor
  · unfold processBlockFromNetwork
    rw [if_neg hnb, if_pos hh, if_neg hne, hfb]
    dsimp only
    rcases oc.syncProcessBlock peer core1.tip.header.height blk kh core1 with ⟨core2, bufs, err⟩
    exact List.mem_cons_self _ _
  · intro s2 blk2 h2
    unfold processBlockFromNetwork
    rw [if_pos h2]

/-- Witness for C5: processing the concrete competing block blacklists
the displaced tip hash, and blacklisted blocks are dropped
unchanged. -/
theorem C5_fallbackBlacklist_witness :
    sChainW.core.tip.header.hash ∈
      (processBlockFromNetwork ocW 0 0 sChainW blkSameW).state.blacklisted ∧
    ∀ (s2 : ChainState) (blk2 : Block), blk2.header.hash ∈ s2.blacklisted →
      processBlockFromNetwork ocW 0 0 s2 blk2 = ⟨[], s2, none, none⟩ :=
  C5_fallbackBlacklist ocW 0 0 sChainW blkSameW sW (by decide) rfl (by decide) rfl

/-- Claim C10: a non-blacklisted block whose height is strictly below
the current tip height is dropped with nil buffers and nil error, the
whole chain state (tip, provisioner set, blacklist, stored blocks,
highest seen height) unchanged and no collaborator invoked. -/
theorem C10_pastBlockDropped (oc : ChainOracles) (peer kh : Nat) (s : ChainState) (blk : Block)
    (hnb : blk.header.hash ∉ s.blacklisted)
    (hlt : blk.header.height < s.core.tip.header.height) :
    processBlockFromNetwork oc peer kh s blk = ⟨[], s, none, none⟩ := by
  unfold processBlockFromNetwork
  rw [if_neg hnb, if_neg (Nat.ne_of_lt hlt), if_pos hlt]

/-- Witness for C10: the concrete stale block is dropped with nil
buffers, nil error and an unchanged state. -/
theorem C10_pastBlockDropped_witness :
    processBlockFromNetwork ocW 0 0 sChainW5 blkOldW = ⟨[], sChainW5, none, none⟩ :=
  C10_pastBlockDropped ocW 0 0 sChainW5 blkOldW (by decide) (by decide)

/-- Counterexample for C6: a round that collected a valid score (the
best event is non-empty) still has its timeout doubled and its
threshold lowered by `publishBestEvent`, contradicting the claim that
this happens exactly in the empty case. -/
theorem C6_nonEmptyRound_counterexample :
    selC6.bestEvent ≠ emptyScore ∧
    (publishBestEvent selC6).1.timeout ≠ selC6.timeout ∧
    (publishBestEvent selC6).1.threshold ≠ selC6.threshold := by
  decide

/-- Claim C6 (amended): on the selection timeout the Selector publishes
the 32-zero-byte hash when no valid score was collected and the best
score's vote hash otherwise, and on every such publication — empty or
not — the timeout is doubled and the threshold is lowered. -/
theorem C6_publishBestEvent (s : SelectorState) :
    (publishBestEvent s).2 =
      (if s.bestEvent = emptyScore then List.replicate 32 0 else s.bestEvent.voteHash) ∧
    (publishBestEvent s).1.timeout = s.timeout * 2 ∧
    (publishBestEvent s).1.threshold = s.threshold / 2 ∧
    (publishBestEvent s).1.bestEvent = s.bestEvent := by
  unfold publishBestEvent increaseTimeOut lowerThreshold
  exact ⟨rfl, rfl, rfl, rfl⟩

/-- Claim C7: every `Selector.Process` call that returns an error
leaves the Selector's state — in particular the stored best event —
exactly as it was before the call. -/
theorem C7_processErrorRestoresBest (h : ScoreHandler) (s : SelectorState) (ev : Score)
    (s2 : SelectorState) (e : Nat) (out : Option (Bytes × Bytes))
    (hp : selectorProcess h s ev = (s2, .error e, out)) :
    s2 = s := by
  obtain ⟨be, tOut, th⟩ := s
  unfold selectorProcess at hp
  by_cases hc : ¬ (be = emptyScore) ∧ h.priority be ev = true
  · rw [if_pos hc] at hp
    simp at hp
  · rw [if_neg hc] at hp
    dsimp only at hp
    rcases hv : h.verify ev with e1 | u <;> rw [hv] at hp <;> dsimp only at hp
    · simp only [Prod.mk.injEq] at hp
      exact hp.1.symm
    · rcases hm : h.marshal ev with e2 | buf <;> rw [hm] at hp <;> dsimp only at hp
      · simp only [Prod.mk.injEq] at hp
        exact hp.1.symm
      · simp at hp

/-- Witness for C7: processing a concrete score whose verification
fails returns the error and the state it started from. -/
theorem C7_processErrorRestoresBest_witness : selC7 = selC7 :=
  C7_processErrorRestoresBest hC7 selC7 ⟨[3], [4]⟩ selC7 5 none rfl

/-- The transaction-indexing loop of `StoreBlock` succeeds on
transactions with non-empty ids and only writes the transaction
tables, leaving the block, height and tip-state entries of the batch
untouched. -/
theorem storeTxLoop_ok (bhash : Bytes) (l : List Tx) :
    ∀ (batch : LiteBatch) (i : Nat), (∀ t ∈ l, t.hash ≠ []) →
    ∃ batch2, storeTxLoop batch bhash i l = .ok batch2 ∧
      batch2.blocks = batch.blocks ∧ batch2.heightTbl = batch.heightTbl ∧
      batch2.stateTip = batch.stateTip := by
  induction l with
  | nil =>
    intro batch i _
    exact ⟨batch, rfl, rfl, rfl, rfl⟩
  | cons t rest ih =>
    intro batch i hl
    have ht : t.hash ≠ [] := hl t (List.mem_cons_self _ _)
    obtain ⟨batch2, hb2, h1, h2, h3⟩ :=
      ih { batch with
            txsTbl := fun k => if k = t.hash then some (t, i) else batch.txsTbl k,
            txHashTbl := fun k => if k = t.hash then some bhash else batch.txHashTbl k }
        (i + 1) (fun x hx => hl x (List.mem_cons_of_mem _ hx))
    refine ⟨batch2, ?_, h1, h2, h3⟩
    unfold storeTxLoop
    rw [if_neg ht]
    exact hb2

/-- Claim C8: storing a block (with a non-empty hash and non-empty
transaction ids) in a writable lite transaction and committing it makes
the store report the block's height as the current height and the
block's hash as the hash at that height. -/
theorem C8_storeBlockFetch (t : LiteTxn) (b : Block)
    (hw : t.writable = true)
    (hhash : b.header.hash ≠ [])
    (htxs : ∀ tx ∈ b.txs, tx.hash ≠ []) :
    ∃ t2 st, storeBlockLite t b = .ok t2 ∧ commitLite t2 = .ok st ∧
      fetchCurrentHeightLite st = .ok b.header.height ∧
      fetchBlockHashByHeightLite st b.header.height = .ok b.header.hash := by
  obtain ⟨batch2, hb2, h1, h2, h3⟩ :=
    storeTxLoop_ok b.header.hash b.txs
      { t.batch with blocks := fun k => if k = b.header.hash then some b else t.batch.blocks k }
      0 htxs
  dsimp only at h1 h2 h3 hb2
  have hstore : storeBlockLite t b = .ok
      { writable := true,
        storage :=
          { blocks := t.storage.blocks, txsTbl := t.storage.txsTbl,
            txHashTbl := t.storage.txHashTbl, heightTbl := t.storage.heightTbl,
            stateTip := t.storage.stateTip,
            bidValues := fun h => if h < b.header.height then none else t.storage.bidValues h },
        batch :=
          { blocks := batch2.blocks, txsTbl := batch2.txsTbl, txHashTbl := batch2.txHashTbl,
            heightTbl := fun h => if h = b.header.height then some b else batch2.heightTbl h,
            stateTip := some b.header.hash } } := by
    unfold storeBlockLite
    rw [hw]
    rw [if_neg (by simp)]
    dsimp only
    rw [hb2]
  refine ⟨_, mergeLite
      { blocks := t.storage.blocks, txsTbl := t.storage.txsTbl,
        txHashTbl := t.storage.txHashTbl, heightTbl := t.storage.heightTbl,
        stateTip := t.storage.stateTip,
        bidValues := fun h => if h < b.header.height then none else t.storage.bidValues h }
      { blocks := batch2.blocks, txsTbl := batch2.txsTbl, txHashTbl := batch2.txHashTbl,
        heightTbl := fun h => if h = b.header.height then some b else batch2.heightTbl h,
        stateTip := some b.header.hash },
    hstore, ?_, ?_, ?_⟩
  · unfold commitLite
    dsimp only
    rw [if_neg (by simp)]
  · unfold fetchCurrentHeightLite fetchStateLite fetchBlockHeaderLite mergeLite
    dsimp only
    rw [if_neg hhash]
    rw [h1]
    dsimp only
    rw [if_pos rfl]
  · unfold fetchBlockHashByHeightLite mergeLite
    dsimp only
    rw [if_pos rfl]

/-- Witness for C8: storing and committing the concrete block makes the
lite store report height 7 and hash `[5]` at height 7. -/
theorem C8_storeBlockFetch_witness :
    ∃ t2 st, storeBlockLite liteTxnW blockC8 = .ok t2 ∧ commitLite t2 = .ok st ∧
      fetchCurrentHeightLite st = .ok blockC8.header.height ∧
      fetchBlockHashByHeightLite st blockC8.header.height = .ok blockC8.header.hash :=
  C8_storeBlockFetch liteTxnW blockC8 rfl (by decide) (by decide)

/-- Counterexample for C9: `NotFound` is an expected reply of `GetData`
and no expected reply is pending in the empty map, yet
`AddMessage(GetData)` followed by `RemoveMessage(NotFound)` does not
restore the pending-response map — `Block` (and `Tx`) stay pending,
because `removeMessage` clears only `NotFound` itself. -/
theorem C9_notFound_counterexample :
    Cmd.notFound ∈ stallAddMatrix Cmd.getData ∧
    (∀ q ∈ stallAddMatrix Cmd.getData, stallEmpty q = none) ∧
    stallRemoveMessage (stallAddMessage stallEmpty 0 1 Cmd.getData) Cmd.notFound Cmd.block ≠
      stallEmpty Cmd.block := by
  decide

/-- Claim C9 (amended): for every command with an expected reply and
every detector state in which none of the command's expected replies is
pending, `AddMessage(cmd)` followed by `RemoveMessage(reply)` for an
expected reply of `cmd` other than `NotFound` restores the
pending-response map to its previous value. -/
theorem C9_addRemoveRestores (resp : StallResponses) (now responseTime : Nat)
    (cmd reply : Cmd)
    (hmem : reply ∈ stallAddMatrix cmd)
    (hnf : reply ≠ Cmd.notFound)
    (hfresh : ∀ q ∈ stallAddMatrix cmd, resp q = none)
    (q : Cmd) :
    stallRemoveMessage (stallAddMessage resp now responseTime cmd) reply q = resp q := by
  cases cmd with
  | getHeaders =>
    have hr : reply = Cmd.headers := by simpa [stallAddMatrix] using hmem
    subst hr
    have hf := hfresh Cmd.headers (by simp [stallAddMatrix])
    simp only [stallAddMessage, stallRemoveMessage, stallAddMatrix, stallRemoveMatrix,
      List.foldl_cons, List.foldl_nil, stallSet, stallDel]
    split_ifs <;> simp_all
  | getAddr =>
    have hr : reply = Cmd.addr := by simpa [stallAddMatrix] using hmem
    subst hr
    have hf := hfresh Cmd.addr (by simp [stallAddMatrix])
    simp only [stallAddMessage, stallRemoveMessage, stallAddMatrix, stallRemoveMatrix,
      List.foldl_cons, List.foldl_nil, stallSet, stallDel]
    split_ifs <;> simp_all
  | getBlocks =>
    have hr : reply = Cmd.inv := by simpa [stallAddMatrix] using hmem
    subst hr
    have hf := hfresh Cmd.inv (by simp [stallAddMatrix])
    simp only [stallAddMessage, stallRemoveMessage, stallAddMatrix, stallRemoveMatrix,
      List.foldl_cons, List.foldl_nil, stallSet, stallDel]
    split_ifs <;> simp_all
  | version =>
    have hr : reply = Cmd.verAck := by simpa [stallAddMatrix] using hmem
    subst hr
    have hf := hfresh Cmd.verAck (by simp [stallAddMatrix])
    simp only [stallAddMessage, stallRemoveMessage, stallAddMatrix, stallRemoveMatrix,
      List.foldl_cons, List.foldl_nil, stallSet, stallDel]
    split_ifs <;> simp_all
  | getData =>
    have hb := hfresh Cmd.block (by simp [stallAddMatrix])
    have htx := hfresh Cmd.tx (by simp [stallAddMatrix])
    have hnf2 := hfresh Cmd.notFound (by simp [stallAddMatrix])
    have hr : reply = Cmd.block ∨ reply = Cmd.tx := by
      have : reply = Cmd.block ∨ reply = Cmd.tx ∨ reply = Cmd.notFound := by
        simpa [stallAddMatrix] using hmem
      rcases this with h | h | h
      · exact Or.inl h
      · exact Or.inr h
      · exact absurd h hnf
    rcases hr with h | h <;> subst h <;>
      simp only [stallAddMessage, stallRemoveMessage, stallAddMatrix, stallRemoveMatrix,
        List.foldl_cons, List.foldl_nil, stallSet, stallDel] <;>
      split_ifs <;> simp_all
  | verAck => simp [stallAddMatrix] at hmem
  | addr => simp [stallAddMatrix] at hmem
  | headers => simp [stallAddMatrix] at hmem
  | inv => simp [stallAddMatrix] at hmem
  | block => simp [stallAddMatrix] at hmem
  | tx => simp [stallAddMatrix] at hmem
  | notFound => simp [stallAddMatrix] at hmem

/-- Witness for the amended C9: on the empty map, `AddMessage(GetBlocks)`
followed by `RemoveMessage(Inv)` leaves the entry for `Inv` (and with it
the whole map) as it was. -/
theorem C9_addRemoveRestores_witness :
    stallRemoveMessage (stallAddMessage stallEmpty 0 1 Cmd.getBlocks) Cmd.inv Cmd.inv =
      stallEmpty Cmd.inv :=
  C9_addRemoveRestores stallEmpty 0 1 Cmd.getBlocks Cmd.inv (by decide) (by decide)
    (fun _ _ => rfl) Cmd.inv
